import Mathlib

/-!
Shallow embedding of `main.go` from the home-vision-project repository: a
batch tool that fetches a paginated house catalog over HTTP and downloads
each house's photo to a local file.  Stateful Go code (HTTP requests, the
filesystem, channels, the wait group) is embedded by passing the outcome of
each external interaction explicitly; machine strings are `List Char`,
byte sequences are `List Nat`.
-/

namespace HomeVision

/-- Raw bytes of an HTTP body or a file, as in Go a `[]byte`. -/
abbrev Bytes := List Nat

instance instDecEqExcept {ε α : Type} [DecidableEq ε] [DecidableEq α] :
    DecidableEq (Except ε α) := fun x y =>
  match x, y with
  | .ok a, .ok b =>
    if h : a = b then .isTrue (by rw [h]) else .isFalse (by simp [h])
  | .error a, .error b =>
    if h : a = b then .isTrue (by rw [h]) else .isFalse (by simp [h])
  | .ok _, .error _ => .isFalse (by simp)
  | .error _, .ok _ => .isFalse (by simp)

/-- `type house struct` of `main.go` (lines 29-35). -/
structure house where
  ID : Int
  Address : String
  Homeowner : String
  Price : Int
  PhotoURL : String
deriving DecidableEq

/-- `type getHomesResponse struct` of `main.go` (lines 37-40). -/
structure getHomesResponse where
  Houses : List house
  Ok : Bool
deriving DecidableEq

/-- `type downloadStatus struct` of `main.go` (lines 42-46). -/
structure downloadStatus where
  page : Nat
  total : Nat
  current : Nat
deriving DecidableEq

/-! ### Go string primitives used by `getFileExtension` -/

/-- Go `strings.Index(s, "/")` specialised to a one-character needle: the
index of the first occurrence of `c` in `s`, and `-1` when `c` does not
occur (exactly the Go contract). -/
def stringsIndexChar : List Char → Char → Int
  | [], _ => -1
  | a :: rest, c =>
    if a = c then 0
    else
      let i := stringsIndexChar rest c
      if i = -1 then -1 else i + 1

/-- Go slice expression `s[i:]`, which panics when `i` is outside
`[0, len(s)]`; the panic is the `none` branch. -/
def goSliceFrom (s : List Char) (i : Int) : Option (List Char) :=
  if 0 ≤ i ∧ i ≤ (s.length : Int) then some (s.drop i.toNat) else none

/-- Go `resp.Header.Get("Content-Type")`: the header's value when the
header is present, and the empty string when it is entirely absent. -/
def headerGet : Option (List Char) → List Char
  | none => []
  | some v => v

/-- Outcome of the HTTP interaction performed by `getFileExtension`:
`http.NewRequest` can fail, `http.DefaultClient.Do` can fail, or a
response arrives carrying a possibly absent `Content-Type` header. -/
inductive HeadOutcome where
  | reqError (msg : String)
  | doError (msg : String)
  | response (contentType : Option (List Char))
deriving DecidableEq

/-- `getFileExtension` of `main.go` (lines 198-218), as a function of the
outcome of its HEAD request.  The outer `Option` is Go panic: `none` means
the slice expression `mimeHeader[strings.Index(mimeHeader, "/")+1:]`
indexed out of range; `some` is a normal return of Go's
`(string, error)` pair, embedded as `Except`. -/
def getFileExtension (o : HeadOutcome) : Option (Except String (List Char)) :=
  match o with
  | .reqError msg => some (.error msg)
  | .doError msg => some (.error msg)
  | .response ct =>
    let mimeHeader := headerGet ct
    match goSliceFrom mimeHeader (stringsIndexChar mimeHeader '/' + 1) with
    | none => none
    | some mimeType =>
      if mimeType = "jpeg".toList then some (.ok "jpg".toList)
      else some (.ok mimeType)

/-! ### `retryIndefintely` (lines 188-195)

The Go operation `f func() error` is embedded as the sequence of outcomes
of its successive invocations: `f j = none` means the `j`-th invocation
(0-based) returns a `nil` error, `f j = some msg` that it fails.  The
`for` loop carries no delay, backoff or attempt bound; `fuel` only makes
the unbounded loop a total Lean function (`none` = still looping). -/

/-- The `for { err := f(); if err == nil { return } }` loop of
`retryIndefintely`, started at invocation index `i`; returns the total
number of invocations performed on success. -/
def retryLoop (f : Nat → Option String) : Nat → Nat → Option Nat
  | 0, _ => none
  | fuel + 1, i =>
    match f i with
    | none => some (i + 1)
    | some _ => retryLoop f fuel (i + 1)

/-- `retryIndefintely(f)` of `main.go`: run the retry loop from the first
invocation. -/
def retryIndefintely (f : Nat → Option String) (fuel : Nat) : Option Nat :=
  retryLoop f fuel 0

/-! ### Page Worker: `downloadImages` (lines 89-123) -/

/-- The `for _, h := range houses { go retryIndefintely(...) }` dispatch
loop of `downloadImages`: one Download Worker goroutine is launched per
house; returns how many launches happen. -/
def dispatchDownloadWorkers : List house → Nat
  | [] => 0
  | _ :: rest => dispatchDownloadWorkers rest + 1

/-- The `for i := 0; i < len(houses); i++` collection loop of
`downloadImages` (lines 116-120): each iteration receives one value from
`downloadChan` (blocking — `none` — if no signal is available), increments
`downloadCount`, and calls `notify` with the current status.  Arguments:
iterations remaining, the `downloadCount` accumulator, the signals
available on the channel.  Returns the emitted Progress Events and the
signals left undrained. -/
def collectLoop (pageNumber total : Nat) :
    Nat → Nat → List Unit → Option (List downloadStatus × List Unit)
  | 0, _, sigs => some ([], sigs)
  | rem + 1, downloadCount, sigs =>
    match sigs with
    | [] => none
    | _ :: rest =>
      match collectLoop pageNumber total rem (downloadCount + 1) rest with
      | none => none
      | some (evs, leftover) =>
        some (⟨pageNumber, total, downloadCount + 1⟩ :: evs, leftover)

/-- The collecting phase of `downloadImages` for a fetched page: drain
`len(houses)` signals starting from `downloadCount = 0`. -/
def downloadImagesCollect (pageNumber : Nat) (houses : List house)
    (sigs : List Unit) : Option (List downloadStatus × List Unit) :=
  collectLoop pageNumber houses.length houses.length 0 sigs

/-! ### Orchestrator: `main` (lines 48-86) -/

/-- The `for i := 1; i <= pageCount; i++` loop of `main`, which spawns
`go downloadImages(i, ...)` (after `wg.Add(1)`) for each `i`: the list of
page numbers dispatched, starting from loop counter `i`. -/
def dispatchLoop (pageCount : Nat) (i : Nat) : List Nat :=
  if i ≤ pageCount then i :: dispatchLoop pageCount (i + 1) else []
termination_by pageCount + 1 - i
decreasing_by omega

/-- The page numbers for which `main` dispatches a Page Worker. -/
def mainDispatch (pageCount : Nat) : List Nat :=
  dispatchLoop pageCount 1

/-- `sync.WaitGroup` counter after `adds` calls to `wg.Add(1)` and
`dones` calls to `wg.Done()`. -/
def wgCounter (adds dones : Nat) : Int :=
  (adds : Int) - (dones : Int)

/-- Whether `wg.Wait()` returns: it unblocks exactly when the counter is
zero. -/
def wgWaitReturns (adds dones : Nat) : Bool :=
  wgCounter adds dones = 0

/-! ### Catalog Client: `fetchHouses` (lines 126-155)

JSON decoding (`json.Unmarshal` into `getHomesResponse`) is Go standard
library code external to the repository, so it is a parameter of the
embedding; the HTTP GET's outcome is the function's input — one GET per
invocation, structurally (no retry inside `fetchHouses`). -/

/-- Outcome of the single `http.Get` in `fetchHouses`. -/
inductive FetchOutcome where
  | transportError (msg : String)
  | response (status : Nat) (body : Bytes)
deriving DecidableEq

/-- The errors `fetchHouses` can return: a transport error from
`http.Get`, the `fmt.Errorf("Error fetching page: %d", pageNumber)` for a
non-200 status, or the `json.Unmarshal` error. -/
inductive FetchErr where
  | transport (msg : String)
  | badStatus (pageNumber : Nat)
  | malformed (msg : String)
deriving DecidableEq

/-- `fetchHouses` of `main.go`: propagate a transport error, reject any
non-200 status, decode the body, and return `r.Houses`. -/
def fetchHouses (jsonUnmarshal : Bytes → Except String getHomesResponse)
    (pageNumber : Nat) (o : FetchOutcome) : Except FetchErr (List house) :=
  match o with
  | .transportError m => .error (.transport m)
  | .response status body =>
    if status ≠ 200 then .error (.badStatus pageNumber)
    else
      match jsonUnmarshal body with
      | .error m => .error (.malformed m)
      | .ok r => .ok r.Houses

/-! ### Asset download: `downloadImage` (lines 158-183)

The destination file is the one piece of filesystem state `downloadImage`
touches, so the embedding carries the content at the destination path
(`none` = no file) together with the count of completion signals sent on
the channel `c`. -/

/-- Outcome of the HTTP interaction in `downloadImage`:
`http.NewRequest` failure, `http.DefaultClient.Do` failure, or a response
with a status code and body bytes. -/
inductive DlOutcome where
  | reqError (msg : String)
  | doError (msg : String)
  | response (status : Nat) (body : Bytes)
deriving DecidableEq

/-- Outcome of the `io.Copy(f, resp.Body)` call: complete success, or an
I/O failure after `written` bytes reached the file. -/
inductive CopyOutcome where
  | copyOk
  | copyFail (written : Nat) (msg : String)
deriving DecidableEq

/-- State observable from `downloadImage`: the destination file's content
and the number of completion signals sent on the channel. -/
structure DlState where
  content : Option Bytes
  signals : Nat
deriving DecidableEq

/-- Writing `new` into a file holding `old`, starting at offset 0 without
truncation: exactly what a file opened with `O_CREATE|O_WRONLY` (and no
`O_TRUNC`) receives from `io.Copy` — bytes beyond `len(new)` survive. -/
def overwriteFrom0 (old new : Bytes) : Bytes :=
  new ++ old.drop new.length

/-- `downloadImage` of `main.go`: on HTTP success, open the destination
with `os.OpenFile(fileName, os.O_CREATE|os.O_WRONLY, 0644)` (creates an
empty file when absent, keeps existing bytes otherwise — `openErr` is the
possible open failure), copy the body into it from offset 0, and send one
`struct{}{}` on the channel only after a fully successful copy.  The HTTP
status code is never inspected. -/
def downloadImage (o : DlOutcome) (openErr : Option String)
    (copy : CopyOutcome) (st : DlState) : DlState × Except String Unit :=
  match o with
  | .reqError m => (st, .error m)
  | .doError m => (st, .error m)
  | .response _ body =>
    match openErr with
    | some m => (st, .error m)
    | none =>
      let old := st.content.getD []
      match copy with
      | .copyFail w m =>
        ({ content := some (overwriteFrom0 old (body.take w)),
           signals := st.signals }, .error m)
      | .copyOk =>
        ({ content := some (overwriteFrom0 old body),
           signals := st.signals + 1 }, .ok ())

/-! ### Download Worker body: filename derivation (lines 103-114) -/

/-- `fmt.Sprintf("%d-%s-%s.%s", house.ID, house.Homeowner, house.Address,
ext)` of `downloadImages`. -/
def sprintfFileName (id : Int) (homeowner address : String)
    (ext : List Char) : String :=
  toString id ++ "-" ++ homeowner ++ "-" ++ address ++ "." ++ String.mk ext

/-- The head of the Download Worker closure (lines 106-111): probe the
extension via `getFileExtension` and compose the filename; a probe error
is wrapped as `fmt.Errorf("Error getting file extension: %s", err)`, and
a probe panic (`none`) propagates. -/
def deriveFileName (h : house) (probe : HeadOutcome) :
    Option (Except String String) :=
  match getFileExtension probe with
  | none => none
  | some (.error e) => some (.error ("Error getting file extension: " ++ e))
  | some (.ok ext) => some (.ok (sprintfFileName h.ID h.Homeowner h.Address ext))

/-! ## Helper lemmas -/

/-- `strings.Index` stays in `[-1, len(s))`: `-1` when the character is
absent, a valid index otherwise. -/
theorem stringsIndexChar_range (s : List Char) (c : Char) :
    -1 ≤ stringsIndexChar s c ∧ stringsIndexChar s c < (s.length : Int) := by
  induction s with
  | nil =>
    constructor
    · exact le_refl _
    · norm_num [stringsIndexChar]
  | cons a rest ih =>
    obtain ⟨ih1, ih2⟩ := ih
    show -1 ≤ stringsIndexChar (a :: rest) c ∧
      stringsIndexChar (a :: rest) c < ((a :: rest).length : Int)
    have hunfold : stringsIndexChar (a :: rest) c
        = if a = c then 0
          else if stringsIndexChar rest c = -1 then -1
          else stringsIndexChar rest c + 1 := rfl
    rw [hunfold, List.length_cons]
    by_cases h : a = c
    · rw [if_pos h]
      omega
    · rw [if_neg h]
      by_cases h2 : stringsIndexChar rest c = -1
      · rw [if_pos h2]
        omega
      · rw [if_neg h2]
        omega

/-- The slice `s[strings.Index(s, c)+1:]` is always in range, so
`goSliceFrom` never hits the panic branch there. -/
theorem goSliceFrom_isSome (s : List Char) (c : Char) :
    goSliceFrom s (stringsIndexChar s c + 1)
      = some (s.drop (stringsIndexChar s c + 1).toNat) := by
  obtain ⟨h1, h2⟩ := stringsIndexChar_range s c
  unfold goSliceFrom
  rw [if_pos ⟨by omega, by omega⟩]

/-- On a `.response`, `getFileExtension` always returns normally with a
`nil` error. -/
theorem getFileExtension_response_ok (ct : Option (List Char)) :
    ∃ ext, getFileExtension (.response ct) = some (.ok ext) := by
  simp only [getFileExtension, goSliceFrom_isSome (headerGet ct) '/']
  by_cases h : (headerGet ct).drop (stringsIndexChar (headerGet ct) '/' + 1).toNat
      = "jpeg".toList
  · exact ⟨_, by rw [if_pos h]⟩
  · exact ⟨_, by rw [if_neg h]⟩

/-- When `c` first occurs in `s` at the boundary `pre ++ c :: rest`,
`strings.Index` returns `len(pre)`. -/
theorem stringsIndexChar_append (pre rest : List Char) (c : Char) (h : c ∉ pre) :
    stringsIndexChar (pre ++ c :: rest) c = (pre.length : Int) := by
  induction pre with
  | nil => simp [stringsIndexChar]
  | cons a pr ih =>
    have ha : ¬a = c := by
      intro e
      exact h (by simp [e])
    have hc : c ∉ pr := fun hm => h (List.mem_cons_of_mem _ hm)
    have ihe := ih hc
    have hunfold : stringsIndexChar ((a :: pr) ++ c :: rest) c
        = if a = c then 0
          else if stringsIndexChar (pr ++ c :: rest) c = -1 then -1
          else stringsIndexChar (pr ++ c :: rest) c + 1 := rfl
    rw [hunfold, if_neg ha, ihe, List.length_cons]
    have hne : (pr.length : Int) ≠ -1 := by omega
    rw [if_neg hne]
    omega

/-- Slicing just past the first `c` of `pre ++ c :: rest` yields `rest`. -/
theorem goSliceFrom_after_first (pre rest : List Char) (c : Char) (h : c ∉ pre) :
    goSliceFrom (pre ++ c :: rest) (stringsIndexChar (pre ++ c :: rest) c + 1)
      = some rest := by
  rw [stringsIndexChar_append pre rest c h]
  unfold goSliceFrom
  rw [if_pos]
  · have ht : ((pre.length : Int) + 1).toNat = pre.length + 1 := by omega
    rw [ht]
    have he : pre ++ c :: rest = (pre ++ [c]) ++ rest := by simp
    rw [he]
    have h2 : (pre ++ [c]).length = pre.length + 1 := by simp
    rw [← h2]
    exact congrArg some (List.drop_left _ _)
  · constructor
    · omega
    · simp only [List.length_append, List.length_cons]
      omega

/-- The Download Worker dispatch loop launches one goroutine per house. -/
theorem dispatchDownloadWorkers_eq_length (hs : List house) :
    dispatchDownloadWorkers hs = hs.length := by
  induction hs with
  | nil => rfl
  | cons a t ih => simp [dispatchDownloadWorkers, ih]

/-- The collection loop of `downloadImages`, run for `rem` iterations from
counter value `dc` with at least `rem` signals available: it drains
exactly `rem` signals and emits events with `current` rising by one per
iteration. -/
theorem collectLoop_eq (p t : Nat) :
    ∀ (rem dc : Nat) (sigs : List Unit), rem ≤ sigs.length →
      collectLoop p t rem dc sigs
        = some ((List.range rem).map (fun j => ⟨p, t, dc + j + 1⟩),
            sigs.drop rem) := by
  intro rem
  induction rem with
  | zero =>
    intro dc sigs _
    simp [collectLoop]
  | succ n ih =>
    intro dc sigs hlen
    match sigs with
    | [] => simp at hlen
    | s :: rest =>
      have h2 : n ≤ rest.length := by
        simp only [List.length_cons] at hlen
        omega
      have hg : ((fun j => (⟨p, t, dc + j + 1⟩ : downloadStatus)) ∘ Nat.succ)
          = fun j => (⟨p, t, dc + 1 + j + 1⟩ : downloadStatus) := by
        funext j
        have hz : dc + Nat.succ j + 1 = dc + 1 + j + 1 := by omega
        simp [Function.comp, hz]
      simp only [collectLoop, ih (dc + 1) rest h2, List.range_succ_eq_map,
        List.map_cons, List.map_map, hg, Nat.add_zero, List.drop_succ_cons]

/-- The spec of `retryLoop` from invocation index `i`: `k` failures then a
success mean `k + 1` invocations in total. -/
theorem retryLoop_spec (f : Nat → Option String) :
    ∀ (k i fuel : Nat), (∀ j, j < k → (f (i + j)).isSome) → f (i + k) = none →
      k + 1 ≤ fuel → retryLoop f fuel i = some (i + k + 1) := by
  intro k
  induction k with
  | zero =>
    intro i fuel _ hk hfuel
    match fuel, hfuel with
    | fu + 1, _ =>
      simp only [retryLoop]
      rw [show i + 0 = i from rfl] at hk
      rw [hk]
  | succ n ih =>
    intro i fuel hfail hk hfuel
    match fuel, hfuel with
    | fu + 1, hfuel =>
      have h0 : (f i).isSome := by
        have := hfail 0 (by omega)
        simpa using this
      obtain ⟨m, hm⟩ := Option.isSome_iff_exists.mp h0
      simp only [retryLoop, hm]
      have hf2 : ∀ j, j < n → (f (i + 1 + j)).isSome := by
        intro j hj
        have := hfail (j + 1) (by omega)
        rwa [show i + (j + 1) = i + 1 + j by omega] at this
      have hk2 : f (i + 1 + n) = none := by
        rwa [show i + (n + 1) = i + 1 + n by omega] at hk
      have := ih (i + 1) fu hf2 hk2 (by omega)
      rw [this]
      congr 1
      omega

/-- The page-dispatch loop of `main`, started at loop counter `i`,
produces the `n = pageCount + 1 - i` consecutive page numbers from `i`. -/
theorem dispatchLoop_eq (p : Nat) :
    ∀ (n i : Nat), p + 1 - i = n → dispatchLoop p i = (List.range n).map (· + i) := by
  intro n
  induction n with
  | zero =>
    intro i hi
    rw [dispatchLoop, if_neg (by omega)]
    simp
  | succ m ih =>
    intro i hi
    rw [dispatchLoop, if_pos (by omega), ih (i + 1) (by omega)]
    have hg : ((· + i) ∘ Nat.succ) = fun x => x + (i + 1) := by
      funext x
      simp only [Function.comp_apply]
      omega
    simp only [List.range_succ_eq_map, List.map_cons, List.map_map, hg,
      Nat.zero_add]

/-! ## The claims -/

/-- Claim C1, counterexample: per the code, `image/jpeg; charset=binary`
does not yield `jpg` — the whole remainder after the first `/`, parameters
included, is compared against `"jpeg"`, so the header yields
`jpeg; charset=binary`. -/
theorem C1_counterexample :
    getFileExtension (.response (some "image/jpeg; charset=binary".toList))
        = some (.ok "jpeg; charset=binary".toList) ∧
      "jpeg; charset=binary".toList ≠ "jpg".toList := by
  constructor
  · decide
  · decide

/-- Claim C1 (amended): for a header `pre ++ "/" ++ rest` whose first `/`
closes `pre`, `getFileExtension` returns exactly `rest` — the full
remainder after the first slash, parameters included — mapped to `jpg`
only when `rest` is exactly `jpeg`; every other remainder passes through
unchanged. -/
theorem C1_subtype_mapping (pre rest : List Char) (h : '/' ∉ pre) :
    getFileExtension (.response (some (pre ++ '/' :: rest)))
      = some (.ok (if rest = "jpeg".toList then "jpg".toList else rest)) := by
  simp only [getFileExtension, headerGet, goSliceFrom_after_first pre rest '/' h]
  by_cases hj : rest = "jpeg".toList
  · rw [if_pos hj, if_pos hj]
  · rw [if_neg hj, if_neg hj]

/-- Witness for C1: the header `image/png` passes `png` through. -/
theorem C1_subtype_mapping_witness :
    ('/' ∉ "image".toList) ∧
      getFileExtension (.response (some ("image".toList ++ '/' :: "png".toList)))
        = some (.ok (if "png".toList = "jpeg".toList then "jpg".toList
            else "png".toList)) :=
  ⟨by decide, C1_subtype_mapping "image".toList "png".toList (by decide)⟩

/-- Claim C2, evaluation of the code at the failing input: the destination
file previously holds four bytes `AAAA` (65), the freshly fetched body is
two bytes `BB` (66).  Because `downloadImage` opens with
`O_CREATE|O_WRONLY` but not `O_TRUNC`, the resulting file is `BBAA` — the
fetched bytes followed by the stale tail — not the fetched bytes alone. -/
theorem C2_stale_tail_evaluation :
    downloadImage (.response 200 [66, 66]) none .copyOk ⟨some [65, 65, 65, 65], 0⟩
        = (⟨some [66, 66, 65, 65], 1⟩, .ok ()) ∧
      ([66, 66, 65, 65] : Bytes) ≠ [66, 66] := by
  constructor
  · rfl
  · decide

/-- Claim C3, counterexample: with the `Content-Type` header entirely
absent, `Header.Get` yields the empty string, `strings.Index` yields `-1`,
and the slice `""[0:]` is in range — `getFileExtension` returns the empty
extension with a `nil` error instead of failing or indexing out of
bounds. -/
theorem C3_counterexample :
    getFileExtension (.response none) = some (.ok ([] : List Char)) ∧
      getFileExtension (.response none) ≠ none := by
  constructor
  · decide
  · decide

/-- Claim C3 (amended): `getFileExtension` fails exactly when the request
cannot be constructed or completed; once any response arrives it always
returns normally with a `nil` error — in particular an entirely absent
header yields the empty extension, and the slice never indexes out of
bounds. -/
theorem C3_probe_failure_modes (m : String) (ct : Option (List Char)) :
    getFileExtension (.reqError m) = some (.error m) ∧
      getFileExtension (.doError m) = some (.error m) ∧
      getFileExtension (.response none) = some (.ok []) ∧
      getFileExtension (.response ct) ≠ none ∧
      ∀ e, getFileExtension (.response ct) ≠ some (.error e) := by
  obtain ⟨ext, hext⟩ := getFileExtension_response_ok ct
  refine ⟨rfl, rfl, by decide, ?_, ?_⟩
  · rw [hext]
    exact Option.noConfusion
  · intro e he
    rw [hext] at he
    exact Except.noConfusion (Option.some.injEq _ _ ▸ he)

/-- Claim C4: an operation that fails on exactly its first `k` invocations
and succeeds on invocation `k + 1` makes `retryIndefintely` return after
exactly `k + 1` invocations; the loop has no delay, no backoff and no
attempt limit, so this holds for every `k`. -/
theorem C4_retry_count (f : Nat → Option String) (k fuel : Nat)
    (hfail : ∀ j, j < k → (f j).isSome) (hsucc : f k = none)
    (hfuel : k + 1 ≤ fuel) :
    retryIndefintely f fuel = some (k + 1) := by
  have h := retryLoop_spec f k 0 fuel
    (fun j hj => by simpa using hfail j hj) (by simpa using hsucc) hfuel
  simpa [retryIndefintely] using h

/-- Witness for C4: two failures then a success mean three invocations. -/
theorem C4_retry_count_witness :
    (∀ j, j < 2 → (((fun n => if n < 2 then some "e" else none) : Nat → Option String) j).isSome) ∧
      ((fun n => if n < 2 then some "e" else none) : Nat → Option String) 2 = none ∧
      2 + 1 ≤ 5 ∧
      retryIndefintely (fun n => if n < 2 then some "e" else none) 5 = some 3 :=
  ⟨fun j hj => by simp [hj], by simp, by omega,
    C4_retry_count (fun n => if n < 2 then some "e" else none) 2 5
      (fun j hj => by simp [hj]) (by simp) (by omega)⟩

/-- Claim C5: for a page whose fetch returns `n` records (and whose
Download Workers eventually supply enough signals), the Page Worker
dispatches `n` Download Workers, drains exactly `n` signals from the
channel, and emits exactly `n` Progress Events whose `current` values are
`1..n` in emission order with `total = n` on each. -/
theorem C5_page_worker_events (p : Nat) (houses : List house)
    (sigs : List Unit) (h : houses.length ≤ sigs.length) :
    downloadImagesCollect p houses sigs
        = some ((List.range houses.length).map
            (fun j => ⟨p, houses.length, j + 1⟩), sigs.drop houses.length) ∧
      dispatchDownloadWorkers houses = houses.length := by
  constructor
  · have hc := collectLoop_eq p houses.length houses.length 0 sigs h
    simpa [downloadImagesCollect] using hc
  · exact dispatchDownloadWorkers_eq_length houses

/-- Witness for C5: a page of two records with three signals available
drains two signals and emits `current = 1, 2` with `total = 2`. -/
theorem C5_page_worker_events_witness :
    ([(⟨1, "a", "b", 0, "u"⟩ : house), ⟨2, "c", "d", 0, "v"⟩].length
        ≤ ([(), (), ()] : List Unit).length) ∧
      downloadImagesCollect 7 [⟨1, "a", "b", 0, "u"⟩, ⟨2, "c", "d", 0, "v"⟩] [(), (), ()]
        = some ([⟨7, 2, 1⟩, ⟨7, 2, 2⟩], [()]) := by
  refine ⟨by decide, ?_⟩
  rw [(C5_page_worker_events 7 [⟨1, "a", "b", 0, "u"⟩, ⟨2, "c", "d", 0, "v"⟩]
    [(), (), ()] (by decide)).1]
  decide

/-- Claim C6: `main` dispatches exactly one Page Worker per page number
`1..p` (in that order), and — with the wait-group counter at `p` after the
dispatch loop — `wg.Wait()` returns exactly when all `p` workers have
called `Done`. -/
theorem C6_orchestrator (p : Nat) :
    mainDispatch p = (List.range p).map (· + 1) ∧
      ∀ d, d ≤ p → (wgWaitReturns p d = true ↔ d = p) := by
  constructor
  · have h := dispatchLoop_eq p p 1 (by omega)
    simpa [mainDispatch] using h
  · intro d _
    simp only [wgWaitReturns, wgCounter, decide_eq_true_eq]
    omega

/-- Witness for C6: three pages are dispatched as `[1, 2, 3]`; with only
two of the three workers done, the wait does not return. -/
theorem C6_orchestrator_witness :
    mainDispatch 3 = (List.range 3).map (· + 1) ∧ 2 ≤ 3 ∧
      (wgWaitReturns 3 2 = true ↔ 2 = 3) :=
  ⟨(C6_orchestrator 3).1, by omega, (C6_orchestrator 3).2 2 (by omega)⟩

/-- Claim C7: filename derivation is a pure function of the record's
fields and the probed extension with shape
`{id}-{homeowner}-{address}.{extension}`; for id 42, homeowner
`Jane Doe`, address `1 Main St` and a `image/jpeg` content type it is
exactly `42-Jane Doe-1 Main St.jpg`, whatever the price and URL. -/
theorem C7_filename_derivation (price : Int) (url : String) (h : house)
    (probe : HeadOutcome) (ext : List Char) :
    deriveFileName ⟨42, "1 Main St", "Jane Doe", price, url⟩
        (.response (some "image/jpeg".toList))
      = some (.ok "42-Jane Doe-1 Main St.jpg") ∧
      (getFileExtension probe = some (.ok ext) →
        deriveFileName h probe
          = some (.ok (toString h.ID ++ "-" ++ h.Homeowner ++ "-"
              ++ h.Address ++ "." ++ String.mk ext))) := by
  constructor
  · rfl
  · intro hp
    simp [deriveFileName, hp, sprintfFileName]

/-- Witness for C7: a `image/png` probe on another record. -/
theorem C7_filename_derivation_witness :
    getFileExtension (.response (some "image/png".toList))
        = some (.ok "png".toList) ∧
      deriveFileName ⟨7, "B St", "Al", 0, "u"⟩ (.response (some "image/png".toList))
        = some (.ok (toString (7 : Int) ++ "-" ++ "Al" ++ "-" ++ "B St"
            ++ "." ++ String.mk "png".toList)) :=
  ⟨by decide,
    (C7_filename_derivation 0 "u" ⟨7, "B St", "Al", 0, "u"⟩
      (.response (some "image/png".toList)) "png".toList).2 (by decide)⟩

/-- Claim C8: `fetchHouses` maps a transport failure to a transport error,
any non-200 status to the bad-status error, a 200 body that fails to
decode to the decode error, and a 200 body that decodes to the decoded
records; the embedding consumes exactly one HTTP response per invocation
— no retry happens inside. -/
theorem C8_fetch_houses (d : Bytes → Except String getHomesResponse)
    (p s : Nat) (b : Bytes) (msg em : String) (r : getHomesResponse) :
    fetchHouses d p (.transportError msg) = .error (.transport msg) ∧
      (s ≠ 200 → fetchHouses d p (.response s b) = .error (.badStatus p)) ∧
      (d b = .error em →
        fetchHouses d p (.response 200 b) = .error (.malformed em)) ∧
      (d b = .ok r → fetchHouses d p (.response 200 b) = .ok r.Houses) := by
  refine ⟨rfl, ?_, ?_, ?_⟩
  · intro h
    simp [fetchHouses, h]
  · intro h
    simp [fetchHouses, h]
  · intro h
    simp [fetchHouses, h]

/-- Witness for C8: a 404 is a bad status; a 200 with an undecodable body
is malformed; a 200 with a decodable body yields the records. -/
theorem C8_fetch_houses_witness :
    ((404 : Nat) ≠ 200 ∧
      fetchHouses (fun _ => .error "bad") 1 (.response 404 [])
        = .error (.badStatus 1)) ∧
      (((fun _ => (.error "bad" : Except String getHomesResponse)) ([] : Bytes))
          = .error "bad" ∧
        fetchHouses (fun _ => .error "bad") 1 (.response 200 [])
          = .error (.malformed "bad")) ∧
      (((fun _ => (.ok ⟨[], true⟩ : Except String getHomesResponse)) ([] : Bytes))
          = .ok ⟨[], true⟩ ∧
        fetchHouses (fun _ => .ok ⟨[], true⟩) 1 (.response 200 []) = .ok []) :=
  ⟨⟨by decide,
      (C8_fetch_houses (fun _ => .error "bad") 1 404 [] "m" "bad" ⟨[], true⟩).2.1
        (by decide)⟩,
    ⟨rfl,
      (C8_fetch_houses (fun _ => .error "bad") 1 404 [] "m" "bad" ⟨[], true⟩).2.2.1
        rfl⟩,
    ⟨rfl,
      (C8_fetch_houses (fun _ => .ok ⟨[], true⟩) 1 404 [] "m" "bad" ⟨[], true⟩).2.2.2
        rfl⟩⟩

/-- Claim C9: `downloadImage` never inspects the HTTP status code — its
entire outcome is the same for any two statuses — and whenever the request
and the body write succeed it writes the body from offset 0 and reports
success, whatever the status. -/
theorem C9_status_not_checked (s s2 : Nat) (b : Bytes)
    (openErr : Option String) (copy : CopyOutcome) (st : DlState) :
    downloadImage (.response s b) openErr copy st
        = downloadImage (.response s2 b) openErr copy st ∧
      downloadImage (.response s b) none .copyOk st
        = ({ content := some (overwriteFrom0 (st.content.getD []) b),
             signals := st.signals + 1 }, .ok ()) :=
  ⟨rfl, rfl⟩

/-- Claim C10: `downloadImage` sends exactly one completion signal
precisely when every step succeeded; on any error it returns the error
having sent none. -/
theorem C10_signal_iff_success (o : DlOutcome) (openErr : Option String)
    (copy : CopyOutcome) (st : DlState) :
    ((downloadImage o openErr copy st).2 = .ok ()
        ∧ (downloadImage o openErr copy st).1.signals = st.signals + 1)
      ∨ ((∃ m, (downloadImage o openErr copy st).2 = .error m)
        ∧ (downloadImage o openErr copy st).1.signals = st.signals) := by
  cases o with
  | reqError m => exact .inr ⟨⟨m, rfl⟩, rfl⟩
  | doError m => exact .inr ⟨⟨m, rfl⟩, rfl⟩
  | response s body =>
    cases openErr with
    | some m => exact .inr ⟨⟨m, rfl⟩, rfl⟩
    | none =>
      cases copy with
      | copyOk => exact .inl ⟨rfl, rfl⟩
      | copyFail w m => exact .inr ⟨⟨m, rfl⟩, rfl⟩

end HomeVision
